import Mathlib

set_option autoImplicit false

namespace VueCropper

/-- A width/height pair (image pixels or boundary pixels), as held in component state. -/
structure Size where
  width : ℚ
  height : ℚ
deriving DecidableEq, Repr

/-- A rectangle in image-pixel space: the crop rectangle (coordinates) or the visible area. -/
structure Rect where
  left : ℚ
  top : ℚ
  width : ℚ
  height : ℚ
deriving DecidableEq, Repr

/-- A point in image-pixel space. -/
structure Point where
  x : ℚ
  y : ℚ
deriving DecidableEq, Repr

/-- Size restrictions for the crop rectangle. -/
structure SizeRestrictions where
  minWidth : ℚ
  minHeight : ℚ
  maxWidth : ℚ
  maxHeight : ℚ
deriving DecidableEq, Repr

/-- Edge bounds: position restrictions for the crop rectangle, or area restrictions
for the visible area. -/
structure EdgeRestrictions where
  left : ℚ
  top : ℚ
  right : ℚ
  bottom : ℚ
deriving DecidableEq, Repr

/-- Boundaries as stored in component data: width/height start out as null (unset) and
are set to numbers (possibly 0) by the boundary computations or by `clearImage`. -/
structure RawBoundaries where
  width : Option ℚ
  height : Option ℚ
deriving DecidableEq, Repr

/-- JavaScript truthiness of a nullable number: null and 0 are falsy. -/
def truthy : Option ℚ → Bool
  | none => false
  | some x => decide (x ≠ 0)

/-- The message of the error thrown by `updateBoundaries`. -/
def cannotFitMessage : String := "It\x27s impossible to fit the cropper in the current container"

/-- Model of `updateBoundaries` (src part_000 lines 829-857): after the configured
default-boundaries algorithm has produced boundaries `b`, the method throws the
"cannot fit" error when the resulting width or height is falsy (zero or unset);
otherwise it completes with the computed boundaries. The thrown error is a bare
message and carries no other state. -/
def updateBoundaries (b : RawBoundaries) : Except String RawBoundaries :=
  if truthy b.width && truthy b.height then Except.ok b else Except.error cannotFitMessage

/-- Effect of `resetVisibleArea` (src part_000 lines 858-885) on the `visibleArea` field:
the `.catch` handler of the `updateBoundaries` promise sets `visibleArea` to null; on
success the area produced by `refineVisibleArea` (here the parameter `refined`) is stored. -/
def resetVisibleAreaResult (b : RawBoundaries) (refined : Rect) : Option Rect :=
  match updateBoundaries b with
  | Except.ok _ => some refined
  | Except.error _ => none

/-- Effect of `updateVisibleArea` (src part_000 lines 886-907) on the `visibleArea` field:
the `.catch` handler sets `visibleArea` to null; on success the area produced by
`fitVisibleArea` (here the parameter `fitted`) is stored. -/
def updateVisibleAreaResult (b : RawBoundaries) (fitted : Rect) : Option Rect :=
  match updateBoundaries b with
  | Except.ok _ => some fitted
  | Except.error _ => none

/-- A sample rectangle used by concrete witnesses. -/
def sampleRect : Rect := ⟨0, 0, 1000, 800⟩

/-- C1: if the computed boundaries have zero or unset width or height, the
boundary-computation step raises the "cannot fit container" error (a bare message, no
partial state), and after the host-side catch `visibleArea` is null in both
`resetVisibleArea` and `updateVisibleArea`; whenever boundaries resolve to positive
width and height, no such error is raised. -/
theorem updateBoundaries_zero_error (b : RawBoundaries) (r f : Rect) :
    ((truthy b.width = false ∨ truthy b.height = false) →
      updateBoundaries b = Except.error cannotFitMessage ∧
      resetVisibleAreaResult b r = none ∧ updateVisibleAreaResult b f = none) ∧
    (∀ w h : ℚ, b.width = some w → b.height = some h → 0 < w → 0 < h →
      updateBoundaries b = Except.ok b ∧
      resetVisibleAreaResult b r = some r ∧ updateVisibleAreaResult b f = some f) := by
  constructor
  · intro hz
    have hg : (truthy b.width && truthy b.height) = false := by
      rcases hz with h | h <;> simp [h]
    simp [updateBoundaries, hg, resetVisibleAreaResult, updateVisibleAreaResult]
  · intro w h hw hh hw0 hh0
    have hg : (truthy b.width && truthy b.height) = true := by
      simp [truthy, hw, hh]
      exact ⟨ne_of_gt hw0, ne_of_gt hh0⟩
    simp [updateBoundaries, hg, resetVisibleAreaResult, updateVisibleAreaResult]

/-- Witness for C1: boundaries 0 × 400 raise the error and leave `visibleArea` null;
boundaries 500 × 400 raise no error. -/
theorem updateBoundaries_zero_error_witness :
    (updateBoundaries ⟨some 0, some 400⟩ = Except.error cannotFitMessage ∧
      resetVisibleAreaResult ⟨some 0, some 400⟩ sampleRect = none ∧
      updateVisibleAreaResult ⟨some 0, some 400⟩ sampleRect = none) ∧
    (updateBoundaries ⟨some 500, some 400⟩ = Except.ok ⟨some 500, some 400⟩ ∧
      resetVisibleAreaResult ⟨some 500, some 400⟩ sampleRect = some sampleRect ∧
      updateVisibleAreaResult ⟨some 500, some 400⟩ sampleRect = some sampleRect) := by
  constructor
  · exact (updateBoundaries_zero_error ⟨some 0, some 400⟩ sampleRect sampleRect).1
      (Or.inl (by decide))
  · exact (updateBoundaries_zero_error ⟨some 500, some 400⟩ sampleRect sampleRect).2
      500 400 rfl rfl (by norm_num) (by norm_num)

/-- The component state fields read by the `coefficient` computed property. -/
structure CoefficientState where
  boundaries : Size
  visibleArea : Option Rect
deriving DecidableEq, Repr

/-- The `coefficient` computed property (src part_000 lines 323-325):
`this.visibleArea ? this.visibleArea.width / this.boundaries.width : 0`. -/
def coefficient (s : CoefficientState) : ℚ :=
  match s.visibleArea with
  | some va => va.width / s.boundaries.width
  | none => 0

/-- C4: whenever `visibleArea` is set, the image-to-screen scale coefficient equals
`visibleArea.width / boundaries.width`; when it is unset the coefficient is 0. -/
theorem coefficient_spec (s : CoefficientState) (va : Rect) (h : s.visibleArea = some va) :
    coefficient s = va.width / s.boundaries.width := by
  simp [coefficient, h]

/-- Witness for C4: a 1000-wide visible area over a 500-wide boundary gives
coefficient 1000 / 500 = 2. -/
theorem coefficient_spec_witness :
    coefficient ⟨⟨500, 400⟩, some sampleRect⟩ = 1000 / 500 ∧ (1000 : ℚ) / 500 = 2 := by
  constructor
  · exact coefficient_spec ⟨⟨500, 400⟩, some sampleRect⟩ sampleRect rfl
  · norm_num

/-- Move parameters of a manipulate-image event (the first constructor argument;
`{}` leaves both unset). -/
structure MoveParams where
  left : Option ℚ
  top : Option ℚ
deriving DecidableEq, Repr

/-- Scale parameters of a manipulate-image event (the second constructor argument). -/
structure ScaleParams where
  factor : ℚ
  center : Option Point
deriving DecidableEq, Repr

/-- Modelled from the spec: the `ManipulateImageEvent` class lives in `./core/events`,
which is not under src/; per its construction sites (src part_000 lines 516-535) it
stores a move part and an optional scale part. -/
structure ManipulateImageEvent where
  move : MoveParams
  scale : Option ScaleParams
deriving DecidableEq, Repr

/-- The event dispatched by the public `zoom` method (src part_000 lines 516-526):
`new ManipulateImageEvent({}, { factor: 1 / factor, center })`. -/
def zoomEvent (factor : ℚ) (center : Option Point) : ManipulateImageEvent :=
  { move := ⟨none, none⟩, scale := some ⟨1 / factor, center⟩ }

/-- C5: the manipulate-image event dispatched by `zoom(factor, center)` carries scale
factor `1 / factor` and the given center as anchor, and a requested zoom greater
than 1 yields an event factor less than 1. -/
theorem zoom_dispatch_spec (factor : ℚ) (center : Option Point) (h : 1 < factor) :
    (zoomEvent factor center).scale = some ⟨1 / factor, center⟩ ∧
    1 / factor < 1 ∧
    (zoomEvent factor center).move = ⟨none, none⟩ := by
  refine ⟨rfl, ?_, rfl⟩
  rw [div_lt_one (lt_trans zero_lt_one h)]
  exact h

/-- Witness for C5: `zoom 2` dispatches an event with scale factor 1/2 < 1. -/
theorem zoom_dispatch_spec_witness :
    (zoomEvent 2 none).scale = some ⟨1 / 2, none⟩ ∧
    (1 : ℚ) / 2 < 1 ∧
    (zoomEvent 2 none).move = ⟨none, none⟩ :=
  zoom_dispatch_spec 2 none (by norm_num)

/-- The handle-size heuristic in `onResize` (src part_000 lines 680-698):
`Math.min(this.coordinates.width, this.coordinates.height, 20 * this.coefficient)`. -/
def onResizeMinimumSize (coordinates : Rect) (coef : ℚ) : ℚ :=
  min coordinates.width (min coordinates.height (20 * coef))

/-- The size restrictions passed to the resize algorithm by `onResize`
(src part_000 lines 680-698): the configured restrictions with `minWidth` and
`minHeight` replaced by their max with the handle-size heuristic. -/
def onResizeSizeRestrictions (sr : SizeRestrictions) (coordinates : Rect) (coef : ℚ) :
    SizeRestrictions :=
  { sr with
    minWidth := max sr.minWidth (onResizeMinimumSize coordinates coef)
    minHeight := max sr.minHeight (onResizeMinimumSize coordinates coef) }

/-- C6: the size restrictions passed to the resize algorithm have `minWidth` and
`minHeight` raised to at least `min(coordinates.width, coordinates.height, 20 * coefficient)`;
the configured minimums win whenever they exceed the heuristic, and the maximums are
passed unchanged. -/
theorem resize_minimum_size_spec (sr : SizeRestrictions) (c : Rect) (coef : ℚ) :
    onResizeMinimumSize c coef ≤ (onResizeSizeRestrictions sr c coef).minWidth ∧
    onResizeMinimumSize c coef ≤ (onResizeSizeRestrictions sr c coef).minHeight ∧
    sr.minWidth ≤ (onResizeSizeRestrictions sr c coef).minWidth ∧
    sr.minHeight ≤ (onResizeSizeRestrictions sr c coef).minHeight ∧
    (onResizeMinimumSize c coef ≤ sr.minWidth →
      (onResizeSizeRestrictions sr c coef).minWidth = sr.minWidth) ∧
    (onResizeMinimumSize c coef ≤ sr.minHeight →
      (onResizeSizeRestrictions sr c coef).minHeight = sr.minHeight) ∧
    (onResizeSizeRestrictions sr c coef).maxWidth = sr.maxWidth ∧
    (onResizeSizeRestrictions sr c coef).maxHeight = sr.maxHeight ∧
    onResizeMinimumSize c coef = min c.width (min c.height (20 * coef)) := by
  refine ⟨le_max_right _ _, le_max_right _ _, le_max_left _ _, le_max_left _ _,
    ?_, ?_, rfl, rfl, rfl⟩
  · intro h
    simp [onResizeSizeRestrictions, max_eq_left h]
  · intro h
    simp [onResizeSizeRestrictions, max_eq_left h]

/-- Witness for C6: with configured minimum 5 on a 100 × 60 crop rectangle and
coefficient 2, the heuristic `min(100, 60, 40) = 40` wins; with configured minimum 50
and coefficient 1, the configured minimum 50 exceeds `min(100, 60, 20) = 20`. -/
theorem resize_minimum_size_spec_witness :
    onResizeMinimumSize ⟨0, 0, 100, 60⟩ 2 ≤
      (onResizeSizeRestrictions ⟨5, 5, 200, 200⟩ ⟨0, 0, 100, 60⟩ 2).minWidth ∧
    (onResizeSizeRestrictions ⟨50, 50, 200, 200⟩ ⟨0, 0, 100, 60⟩ 1).minWidth = 50 := by
  constructor
  · exact (resize_minimum_size_spec ⟨5, 5, 200, 200⟩ ⟨0, 0, 100, 60⟩ 2).1
  · exact (resize_minimum_size_spec ⟨50, 50, 200, 200⟩ ⟨0, 0, 100, 60⟩ 1).2.2.2.2.2.1
      (by norm_num [onResizeMinimumSize])

/-- The all-zero size restrictions returned when boundaries are not positive. -/
def zeroSizeRestrictions : SizeRestrictions := ⟨0, 0, 0, 0⟩

/-- The `sizeRestrictions` computed property (src part_000 lines 362-391), with the
pluggable size-restrictions algorithm and the `refineSizeRestrictions` step abstracted
as the function parameters `alg` and `refineAlg` (their further inputs are irrelevant
here): when either boundary dimension is falsy the guard short-circuits to all-zero
restrictions and neither function is applied. -/
def sizeRestrictionsComputed (alg : Size → SizeRestrictions)
    (refineAlg : SizeRestrictions → SizeRestrictions)
    (b : RawBoundaries) (imageSize : Size) : SizeRestrictions :=
  if truthy b.width && truthy b.height then refineAlg (alg imageSize)
  else zeroSizeRestrictions

/-- C10: with zero or unset boundary width or height, the computed size restrictions
are all zero and the result does not depend on the size-restriction or refinement
algorithms (they are not invoked). -/
theorem zero_boundaries_size_restrictions (b : RawBoundaries) (img : Size)
    (h : truthy b.width = false ∨ truthy b.height = false) :
    ∀ (alg₁ alg₂ : Size → SizeRestrictions)
      (r₁ r₂ : SizeRestrictions → SizeRestrictions),
      sizeRestrictionsComputed alg₁ r₁ b img = zeroSizeRestrictions ∧
      sizeRestrictionsComputed alg₁ r₁ b img = sizeRestrictionsComputed alg₂ r₂ b img := by
  intro alg₁ alg₂ r₁ r₂
  have hg : (truthy b.width && truthy b.height) = false := by
    rcases h with h | h <;> simp [h]
  simp [sizeRestrictionsComputed, hg]

/-- Witness for C10: unset width with a 400 boundary height gives all-zero size
restrictions for two different algorithm pairs. -/
theorem zero_boundaries_size_restrictions_witness :
    sizeRestrictionsComputed (fun _ => ⟨1, 2, 3, 4⟩) id ⟨none, some 400⟩ ⟨1000, 800⟩ =
      zeroSizeRestrictions ∧
    sizeRestrictionsComputed (fun _ => ⟨1, 2, 3, 4⟩) id ⟨none, some 400⟩ ⟨1000, 800⟩ =
      sizeRestrictionsComputed (fun _ => ⟨5, 6, 7, 8⟩) (fun _ => ⟨9, 9, 9, 9⟩)
        ⟨none, some 400⟩ ⟨1000, 800⟩ :=
  zero_boundaries_size_restrictions ⟨none, some 400⟩ ⟨1000, 800⟩ (Or.inl (by decide))
    (fun _ => ⟨1, 2, 3, 4⟩) (fun _ => ⟨5, 6, 7, 8⟩) id (fun _ => ⟨9, 9, 9, 9⟩)

/-- The core-algorithm invocations a reset, refresh or gesture can make. -/
inductive AlgStep where
  | updateBoundariesStep
  | refineVisibleAreaStep
  | deriveCoordinatesStep
  | fitVisibleAreaStep
  | fitCoordinatesStep
  | normalizeEventStep
  | moveAlgorithmStep
  | resizeAlgorithmStep
  | manipulateImageStep
deriving DecidableEq, Repr

/-- The order of steps performed by `resetVisibleArea` (src part_000 lines 858-885)
once `updateBoundaries` has succeeded: when `priority` is not "visibleArea" (the
default is "coordinates"), `visibleArea` is cleared and `resetCoordinates` runs first,
then `visibleArea` is set via `refineVisibleArea`; when `priority` is "visibleArea",
`refineVisibleArea` runs first and `resetCoordinates` afterwards. -/
def resetVisibleAreaTrace (priority : String) : List AlgStep :=
  if priority ≠ "visibleArea" then
    [AlgStep.updateBoundariesStep, AlgStep.deriveCoordinatesStep,
      AlgStep.refineVisibleAreaStep]
  else
    [AlgStep.updateBoundariesStep, AlgStep.refineVisibleAreaStep,
      AlgStep.deriveCoordinatesStep]

/-- The value `this.visibleArea` holds at the moment `resetCoordinates` is invoked
during `resetVisibleArea` (src part_000 lines 861-880): in the branch for priorities
other than "visibleArea" it was just set to undefined; in the "visibleArea" branch it
already holds the refined area `refined`. -/
def visibleAreaAtReset (priority : String) (refined : Rect) : Option Rect :=
  if priority ≠ "visibleArea" then none else some refined

/-- The transform pipeline built inside `resetCoordinates` (src part_000 lines 785-811):
the default size first, then the default position, then the `applyTransform` clamp. -/
inductive CoordStep where
  | defaultSizeStep
  | defaultPositionStep
  | applyTransformStep
deriving DecidableEq, Repr

/-- The order in which `resetCoordinates` derives and clamps the default coordinates. -/
def resetCoordinatesTrace : List CoordStep :=
  [CoordStep.defaultSizeStep, CoordStep.defaultPositionStep, CoordStep.applyTransformStep]

/-- C2 counterexample: at the default priority "coordinates", a full reset derives the
default coordinates BEFORE `visibleArea` is set via `refineVisibleArea`, and at that
moment `visibleArea` is unset — refuting the claim that for every full reset the
visible area exists before coordinates are derived. -/
theorem reset_order_counterexample :
    resetVisibleAreaTrace "coordinates" =
      [AlgStep.updateBoundariesStep, AlgStep.deriveCoordinatesStep,
        AlgStep.refineVisibleAreaStep] ∧
    visibleAreaAtReset "coordinates" sampleRect = none := by
  constructor
  · simp [resetVisibleAreaTrace]
  · simp [visibleAreaAtReset]

/-- C2 amended: a full reset always recomputes boundaries first, and the default
coordinates are always derived size-then-position and clamped via `applyTransform`;
but `visibleArea` is set via `refineVisibleArea` before coordinates are derived only
when the `priority` prop is "visibleArea" — for every other priority (the default is
"coordinates") the coordinates are derived first, with `visibleArea` unset, and
`refineVisibleArea` runs afterwards. -/
theorem reset_order_amended (priority : String) (refined : Rect) :
    (resetVisibleAreaTrace priority).head? = some AlgStep.updateBoundariesStep ∧
    resetCoordinatesTrace =
      [CoordStep.defaultSizeStep, CoordStep.defaultPositionStep,
        CoordStep.applyTransformStep] ∧
    (priority = "visibleArea" →
      resetVisibleAreaTrace priority =
        [AlgStep.updateBoundariesStep, AlgStep.refineVisibleAreaStep,
          AlgStep.deriveCoordinatesStep] ∧
      visibleAreaAtReset priority refined = some refined) ∧
    (priority ≠ "visibleArea" →
      resetVisibleAreaTrace priority =
        [AlgStep.updateBoundariesStep, AlgStep.deriveCoordinatesStep,
          AlgStep.refineVisibleAreaStep] ∧
      visibleAreaAtReset priority refined = none) := by
  by_cases h : priority = "visibleArea" <;>
    simp [resetVisibleAreaTrace, visibleAreaAtReset, resetCoordinatesTrace, h]

/-- Witness for C2 at the concrete priority "visibleArea": there the claimed order
(refine the visible area, then derive coordinates) does hold. -/
theorem reset_order_amended_witness :
    resetVisibleAreaTrace "visibleArea" =
      [AlgStep.updateBoundariesStep, AlgStep.refineVisibleAreaStep,
        AlgStep.deriveCoordinatesStep] ∧
    visibleAreaAtReset "visibleArea" sampleRect = some sampleRect :=
  (reset_order_amended "visibleArea" sampleRect).2.2.1 rfl

/-- The sequence of algorithm invocations made by `updateVisibleArea`
(src part_000 lines 886-907). -/
def updateVisibleAreaTrace : List AlgStep :=
  [AlgStep.updateBoundariesStep, AlgStep.fitVisibleAreaStep, AlgStep.fitCoordinatesStep]

/-- Model of `refresh` (src part_000 lines 908-917) with a loaded image: when the cropper is
already in the inited state (visible area set and image loaded) it runs
`updateVisibleArea`, otherwise it performs a full reset. -/
def refreshTrace (inited : Bool) (priority : String) : List AlgStep :=
  if inited then updateVisibleAreaTrace else resetVisibleAreaTrace priority

/-- Model of `onMove` (src part_000 lines 670-679): normalizes the event, then calls the move
algorithm; no fit algorithm is invoked. -/
def onMoveTrace : List AlgStep :=
  [AlgStep.normalizeEventStep, AlgStep.moveAlgorithmStep]

/-- Model of `onResize` (src part_000 lines 680-698): normalizes the event, then calls the
resize algorithm; no fit algorithm is invoked. -/
def onResizeTrace : List AlgStep :=
  [AlgStep.normalizeEventStep, AlgStep.resizeAlgorithmStep]

/-- Model of `onManipulateImage` (src part_000 lines 700-712): normalizes the event, then calls
the manipulate-image algorithm; no fit algorithm is invoked. -/
def onManipulateImageTrace : List AlgStep :=
  [AlgStep.normalizeEventStep, AlgStep.manipulateImageStep]

/-- The mutable cropper geometry state touched by `updateVisibleArea`. -/
structure CropperData where
  imageSize : Size
  boundaries : RawBoundaries
  visibleArea : Option Rect
  coordinates : Rect
deriving DecidableEq, Repr

/-- Model of `updateVisibleArea` (src part_000 lines 886-907), parameterized by the pluggable
`fitVisibleArea` and `fitCoordinates` props: recompute boundaries (setting the visible
area to null on failure), then fit the visible area to the new boundaries, then fit the
coordinates using the freshly fitted visible area. -/
def updateVisibleAreaRun
    (fitVA : Size → RawBoundaries → Option Rect → Rect → Rect)
    (fitC : Rect → Rect → Rect)
    (newBoundaries : RawBoundaries) (s : CropperData) : CropperData :=
  match updateBoundaries newBoundaries with
  | Except.error _ => { s with visibleArea := none }
  | Except.ok b =>
      let va := fitVA s.imageSize b s.visibleArea s.coordinates
      { s with
        boundaries := b
        visibleArea := some va
        coordinates := fitC va s.coordinates }

/-- C8: a refresh of an inited cropper recomputes boundaries first, then applies
`fitVisibleArea`, then `fitCoordinates`, and `fitCoordinates` receives the freshly
fitted visible area rather than the stale one; the fit algorithms are not invoked by
the gesture handlers `onMove`, `onResize` and `onManipulateImage`. -/
theorem refresh_fit_order
    (fitVA : Size → RawBoundaries → Option Rect → Rect → Rect)
    (fitC : Rect → Rect → Rect)
    (nb b : RawBoundaries) (s : CropperData)
    (hok : updateBoundaries nb = Except.ok b) :
    (∀ priority, refreshTrace true priority =
      [AlgStep.updateBoundariesStep, AlgStep.fitVisibleAreaStep,
        AlgStep.fitCoordinatesStep]) ∧
    (updateVisibleAreaRun fitVA fitC nb s).visibleArea =
      some (fitVA s.imageSize b s.visibleArea s.coordinates) ∧
    (updateVisibleAreaRun fitVA fitC nb s).coordinates =
      fitC (fitVA s.imageSize b s.visibleArea s.coordinates) s.coordinates ∧
    (updateVisibleAreaRun fitVA fitC nb s).boundaries = b ∧
    AlgStep.fitVisibleAreaStep ∉ onMoveTrace ∧
    AlgStep.fitCoordinatesStep ∉ onMoveTrace ∧
    AlgStep.fitVisibleAreaStep ∉ onResizeTrace ∧
    AlgStep.fitCoordinatesStep ∉ onResizeTrace ∧
    AlgStep.fitVisibleAreaStep ∉ onManipulateImageTrace ∧
    AlgStep.fitCoordinatesStep ∉ onManipulateImageTrace := by
  refine ⟨fun priority => rfl, ?_, ?_, ?_, ?_, ?_, ?_, ?_, ?_, ?_⟩ <;>
    simp [updateVisibleAreaRun, hok, onMoveTrace, onResizeTrace, onManipulateImageTrace,
      updateVisibleAreaTrace]

/-- Witness for C8 at concrete inputs: boundaries 500 × 400, a concrete state and
concrete fit functions. -/
theorem refresh_fit_order_witness :
    (updateVisibleAreaRun (fun _ _ _ _ => sampleRect) (fun va _ => va)
      ⟨some 500, some 400⟩
      ⟨⟨1000, 800⟩, ⟨none, none⟩, none, ⟨0, 0, 10, 10⟩⟩).visibleArea = some sampleRect ∧
    (updateVisibleAreaRun (fun _ _ _ _ => sampleRect) (fun va _ => va)
      ⟨some 500, some 400⟩
      ⟨⟨1000, 800⟩, ⟨none, none⟩, none, ⟨0, 0, 10, 10⟩⟩).coordinates = sampleRect := by
  have h := refresh_fit_order (fun _ _ _ _ => sampleRect) (fun va _ => va)
    ⟨some 500, some 400⟩ ⟨some 500, some 400⟩
    ⟨⟨1000, 800⟩, ⟨none, none⟩, none, ⟨0, 0, 10, 10⟩⟩ (by simp [updateBoundaries, truthy])
  exact ⟨h.2.1, h.2.2.1⟩

/-- Clamp `x` between `lo` and `hi` (the lower bound wins on an empty interval, as a
sequence of `Math.max` after `Math.min` does). -/
def clampQ (x lo hi : ℚ) : ℚ := max lo (min hi x)

/-- The crop rectangle satisfies the size restrictions. -/
def satisfiesSize (sr : SizeRestrictions) (c : Rect) : Prop :=
  sr.minWidth ≤ c.width ∧ c.width ≤ sr.maxWidth ∧
  sr.minHeight ≤ c.height ∧ c.height ≤ sr.maxHeight

/-- The edges of the rectangle lie within the given bounds. -/
def withinBounds (b : EdgeRestrictions) (c : Rect) : Prop :=
  b.left ≤ c.left ∧ c.left + c.width ≤ b.right ∧
  b.top ≤ c.top ∧ c.top + c.height ≤ b.bottom

instance satisfiesSizeDecidable (sr : SizeRestrictions) (c : Rect) :
    Decidable (satisfiesSize sr c) := by
  unfold satisfiesSize; infer_instance

instance withinBoundsDecidable (b : EdgeRestrictions) (c : Rect) :
    Decidable (withinBounds b c) := by
  unfold withinBounds; infer_instance

theorem clampQ_low (x lo hi : ℚ) : lo ≤ clampQ x lo hi := le_max_left _ _

theorem clampQ_high (x lo hi : ℚ) (h : lo ≤ hi) : clampQ x lo hi ≤ hi :=
  max_le h (min_le_left _ _)

/-- Clamping a left edge into the window for a rectangle of width `w` keeps both the
left and the right edge inside the bounds. -/
theorem clampQ_window (x lo r w : ℚ) (h : lo + w ≤ r) :
    lo ≤ clampQ x lo (r - w) ∧ clampQ x lo (r - w) + w ≤ r := by
  refine ⟨le_max_left _ _, ?_⟩
  have h1 : clampQ x lo (r - w) ≤ r - w :=
    max_le (by linarith) (min_le_left _ _)
  linarith

/-- The `defaultSize` validity check in `resetCoordinates` (src part_000 lines 771-783):
true when the computed default size breaks a size restriction. -/
def defaultSizeBreaks (ds : Size) (sr : SizeRestrictions) : Bool :=
  decide (ds.width < sr.minWidth) || decide (ds.height < sr.minHeight) ||
    decide (ds.width > sr.maxWidth) || decide (ds.height > sr.maxHeight)

/-- Whether `resetCoordinates` emits the diagnostic console warning about a default
size breaking the size restrictions: the check is guarded by
`process.env.NODE_ENV === "development"` (src part_000 line 772). -/
def resetWarns (env : String) (ds : Size) (sr : SizeRestrictions) : Bool :=
  decide (env = "development") && defaultSizeBreaks ds sr

/-- Modelled from the spec: `algorithms.applyTransform` lives in `./core/algorithms`,
which is not under src/. Per spec 4.7 the transform pipeline derives the size and the
position, then clamps: the size into the size restrictions and the position window,
the position into the position bounds. -/
def applyTransformModel (ds : Size) (pos : Point) (sr : SizeRestrictions)
    (pr : EdgeRestrictions) : Rect :=
  let w := clampQ ds.width sr.minWidth (min sr.maxWidth (pr.right - pr.left))
  let h := clampQ ds.height sr.minHeight (min sr.maxHeight (pr.bottom - pr.top))
  ⟨clampQ pos.x pr.left (pr.right - w), clampQ pos.y pr.top (pr.bottom - h), w, h⟩

/-- Model of `resetCoordinates` (src part_000 lines 743-813) with the default size and position
already computed: it returns the clamped coordinates together with the warning flag;
there is no error path, and the clamp runs in every environment. -/
def resetCoordinatesRun (env : String) (ds : Size) (pos : Point)
    (sr : SizeRestrictions) (pr : EdgeRestrictions) : Rect × Bool :=
  (applyTransformModel ds pos sr pr, resetWarns env ds sr)

/-- C7: the default-size diagnostic warning fires only when the build environment is
"development" (never in production); it fires in development exactly when the default
size breaks the restrictions; the coordinates produced do not depend on the
environment, and they are silently clamped into the size restrictions and position
bounds by the transform step. -/
theorem default_size_warning_spec (env : String) (ds : Size) (pos : Point)
    (sr : SizeRestrictions) (pr : EdgeRestrictions)
    (hw : sr.minWidth ≤ sr.maxWidth) (hh : sr.minHeight ≤ sr.maxHeight)
    (hpw : sr.minWidth ≤ pr.right - pr.left) (hph : sr.minHeight ≤ pr.bottom - pr.top) :
    ((resetCoordinatesRun env ds pos sr pr).2 = true →
      env = "development" ∧ env ≠ "production") ∧
    (env = "development" → defaultSizeBreaks ds sr = true →
      (resetCoordinatesRun env ds pos sr pr).2 = true) ∧
    (resetCoordinatesRun env ds pos sr pr).1 =
      (resetCoordinatesRun "production" ds pos sr pr).1 ∧
    satisfiesSize sr (resetCoordinatesRun env ds pos sr pr).1 ∧
    withinBounds pr (resetCoordinatesRun env ds pos sr pr).1 := by
  have hwle : clampQ ds.width sr.minWidth (min sr.maxWidth (pr.right - pr.left)) ≤
      pr.right - pr.left :=
    max_le hpw (le_trans (min_le_left _ _) (min_le_right _ _))
  have hhle : clampQ ds.height sr.minHeight (min sr.maxHeight (pr.bottom - pr.top)) ≤
      pr.bottom - pr.top :=
    max_le hph (le_trans (min_le_left _ _) (min_le_right _ _))
  refine ⟨?_, ?_, rfl, ?_, ?_⟩
  · intro hwarn
    simp only [resetCoordinatesRun, resetWarns, Bool.and_eq_true, decide_eq_true_eq] at hwarn
    refine ⟨hwarn.1, ?_⟩
    rw [hwarn.1]
    intro hcontra
    exact absurd hcontra (by decide)
  · intro henv hbreaks
    simp [resetCoordinatesRun, resetWarns, henv, hbreaks]
  · refine ⟨clampQ_low _ _ _, ?_, clampQ_low _ _ _, ?_⟩
    · exact max_le hw (le_trans (min_le_left _ _) (min_le_left _ _))
    · exact max_le hh (le_trans (min_le_left _ _) (min_le_left _ _))
  · refine ⟨clampQ_low _ _ _, ?_, clampQ_low _ _ _, ?_⟩
    · exact (clampQ_window pos.x pr.left pr.right _ (by linarith)).2
    · exact (clampQ_window pos.y pr.top pr.bottom _ (by linarith)).2

/-- Witness for C7: a 5 × 5 default size breaks the minimum 10 × 10, yet in the
"production" environment no warning fires and the result is the clamped rectangle. -/
theorem default_size_warning_spec_witness :
    satisfiesSize ⟨10, 10, 100, 100⟩
      (resetCoordinatesRun "production" ⟨5, 5⟩ ⟨0, 0⟩ ⟨10, 10, 100, 100⟩
        ⟨0, 0, 500, 400⟩).1 ∧
    withinBounds ⟨0, 0, 500, 400⟩
      (resetCoordinatesRun "production" ⟨5, 5⟩ ⟨0, 0⟩ ⟨10, 10, 100, 100⟩
        ⟨0, 0, 500, 400⟩).1 ∧
    (resetCoordinatesRun "production" ⟨5, 5⟩ ⟨0, 0⟩ ⟨10, 10, 100, 100⟩
      ⟨0, 0, 500, 400⟩).2 = false ∧
    defaultSizeBreaks ⟨5, 5⟩ ⟨10, 10, 100, 100⟩ = true := by
  have h := default_size_warning_spec "production" ⟨5, 5⟩ ⟨0, 0⟩ ⟨10, 10, 100, 100⟩
    ⟨0, 0, 500, 400⟩ (by norm_num) (by norm_num) (by norm_num) (by norm_num)
  exact ⟨h.2.2.2.1, h.2.2.2.2, by decide, by decide⟩

/-- A rectangle of the shape produced by the clamping phase of every transform: the
size is at most the window size and the position is clamped into the window. -/
theorem clamped_window_rect (pr : EdgeRestrictions) (x y w h : ℚ)
    (hw : w ≤ pr.right - pr.left) (hh : h ≤ pr.bottom - pr.top) :
    withinBounds pr
      ⟨clampQ x pr.left (pr.right - w), clampQ y pr.top (pr.bottom - h), w, h⟩ := by
  have h1 := clampQ_window x pr.left pr.right w (by linarith)
  have h2 := clampQ_window y pr.top pr.bottom h (by linarith)
  exact ⟨h1.1, h1.2, h2.1, h2.2⟩

/-- A normalized move event: the delta added to the crop rectangle position. -/
structure MoveEvent where
  left : ℚ
  top : ℚ
deriving DecidableEq, Repr

/-- Modelled from the spec: `algorithms.move` lives in `./core/algorithms`, which is
not under src/. Per spec 4.2: add the event delta to `left`/`top`, then clamp each
axis independently against the position restrictions; width and height are unchanged. -/
def move (coordinates : Rect) (pr : EdgeRestrictions) (event : MoveEvent) : Rect :=
  { coordinates with
    left := clampQ (coordinates.left + event.left) pr.left (pr.right - coordinates.width)
    top := clampQ (coordinates.top + event.top) pr.top (pr.bottom - coordinates.height) }

/-- A normalized resize event: how far each dragged edge moves outward (zero for the
edges that are not dragged). -/
structure ResizeEvent where
  left : ℚ
  right : ℚ
  top : ℚ
  bottom : ℚ
deriving DecidableEq, Repr

/-- An aspect-ratio range; equal present values lock the ratio. -/
structure AspectRange where
  minimum : Option ℚ
  maximum : Option ℚ
deriving DecidableEq, Repr

/-- Phase 1 of the resize algorithm (spec 4.3): the unconstrained new width/height
from the delta applied to the dragged edges; with a locked aspect ratio the paired
dimension is derived from the dominant axis (the larger relative change). -/
def resizeRawSize (c : Rect) (aspect : AspectRange) (e : ResizeEvent) : ℚ × ℚ :=
  let w0 := c.width + e.left + e.right
  let h0 := c.height + e.top + e.bottom
  match aspect.minimum, aspect.maximum with
  | some rmin, some rmax =>
      if rmin = rmax then
        if |w0 - c.width| * c.height ≥ |h0 - c.height| * c.width then (w0, w0 / rmin)
        else (h0 * rmin, h0)
      else (w0, h0)
  | _, _ => (w0, h0)

/-- Modelled from the spec: `algorithms.resize` lives in `./core/algorithms`, which is
not under src/. Per spec 4.3, phase 2 clamps the raw width/height into the size
restrictions and into the position window, re-derives `left`/`top` so that the anchor
(the side opposite the dragged handle) stays fixed, and finally clamps the resulting
rectangle into the position restrictions, shrinking only as far as the clamp forces. -/
def resize (c : Rect) (sr : SizeRestrictions) (pr : EdgeRestrictions)
    (aspect : AspectRange) (e : ResizeEvent) : Rect :=
  let w := clampQ (resizeRawSize c aspect e).1 sr.minWidth
    (min sr.maxWidth (pr.right - pr.left))
  let h := clampQ (resizeRawSize c aspect e).2 sr.minHeight
    (min sr.maxHeight (pr.bottom - pr.top))
  let l :=
    if e.left = 0 then c.left
    else if e.right = 0 then c.left + c.width - w
    else c.left - (w - c.width) / 2
  let t :=
    if e.top = 0 then c.top
    else if e.bottom = 0 then c.top + c.height - h
    else c.top - (h - c.height) / 2
  ⟨clampQ l pr.left (pr.right - w), clampQ t pr.top (pr.bottom - h), w, h⟩

/-- The intersection of position restrictions with the visible area: `limitBy`
(imported from core in src part_000 line 85; its implementation is not under src/,
modelled from the spec as the restriction of the position bounds to the edges of
the visible area). -/
def limitBy (pr : EdgeRestrictions) (va : Rect) : EdgeRestrictions :=
  ⟨max pr.left va.left, max pr.top va.top,
    min pr.right (va.left + va.width), min pr.bottom (va.top + va.height)⟩

/-- Clamp a rectangle into edge bounds: shrink the size to the window where needed,
then clamp the position. -/
def fitInto (b : EdgeRestrictions) (c : Rect) : Rect :=
  let w := min c.width (b.right - b.left)
  let h := min c.height (b.bottom - b.top)
  ⟨clampQ c.left b.left (b.right - w), clampQ c.top b.top (b.bottom - h), w, h⟩

/-- Lemma: `fitInto` unconditionally keeps all four edges inside the bounds it clamps into. -/
theorem fitInto_withinBounds (b : EdgeRestrictions) (c : Rect) :
    withinBounds b (fitInto b c) :=
  clamped_window_rect b c.left c.top _ _ (min_le_right _ _) (min_le_right _ _)

/-- Edges inside the visible-area-limited bounds are inside the plain bounds. -/
theorem withinBounds_limitBy (pr : EdgeRestrictions) (va c : Rect)
    (h : withinBounds (limitBy pr va) c) : withinBounds pr c := by
  obtain ⟨h1, h2, h3, h4⟩ := h
  simp only [limitBy] at h1 h2 h3 h4
  exact ⟨le_trans (le_max_left _ _) h1, le_trans h2 (min_le_left _ _),
    le_trans (le_max_left _ _) h3, le_trans h4 (min_le_left _ _)⟩

/-- Pan phase of the manipulate-image algorithm (spec 4.4): translate the visible area
by the delta and clamp it into the area restrictions; size unchanged. -/
def panVisibleArea (va : Rect) (ar : EdgeRestrictions) (dl dt : ℚ) : Rect :=
  ⟨clampQ (va.left + dl) ar.left (ar.right - va.width),
    clampQ (va.top + dt) ar.top (ar.bottom - va.height), va.width, va.height⟩

/-- The zoom factor limited so the scaled visible area still fits inside the area
restrictions (spec 4.4: the clamp re-derives the scale only as far as it allows). -/
def fitFactor (va : Rect) (ar : EdgeRestrictions) (factor : ℚ) : ℚ :=
  min factor (min ((ar.right - ar.left) / va.width) ((ar.bottom - ar.top) / va.height))

/-- Zoom phase of the manipulate-image algorithm (spec 4.4): scale the visible area
about the anchor so the anchor is preserved up to the area-restriction clamp. -/
def zoomVisibleArea (va : Rect) (ar : EdgeRestrictions) (factor : ℚ) (anchor : Point) :
    Rect :=
  let w := va.width * factor
  let h := va.height * factor
  ⟨clampQ (anchor.x - (anchor.x - va.left) * factor) ar.left (ar.right - w),
    clampQ (anchor.y - (anchor.y - va.top) * factor) ar.top (ar.bottom - h), w, h⟩

/-- Modelled from the spec: `algorithms.manipulateImage` lives in `./core/algorithms`,
which is not under src/. Per spec 4.4, in one pass: pan translates the visible area by
the delta and clamps it into the area restrictions, moving the coordinates rigidly by
the effective (post-clamp) delta; zoom scales the visible area about the anchor
(default: the visible-area center) by the event factor limited to what the area
restrictions allow, and, when the stencil may resize, scales the coordinates by the
same factor; the coordinates are finally clamped into the position restrictions
limited by the new visible area. -/
def manipulateImage (va c : Rect) (ar pr : EdgeRestrictions)
    (e : ManipulateImageEvent) (stencilResize : Bool) : Rect × Rect :=
  let va1 := panVisibleArea va ar (e.move.left.getD 0) (e.move.top.getD 0)
  let c1 : Rect :=
    ⟨c.left + (va1.left - va.left), c.top + (va1.top - va.top), c.width, c.height⟩
  match e.scale with
  | none => (va1, fitInto (limitBy pr va1) c1)
  | some sc =>
      let factor := fitFactor va1 ar sc.factor
      let anchor := sc.center.getD ⟨va1.left + va1.width / 2, va1.top + va1.height / 2⟩
      let va2 := zoomVisibleArea va1 ar factor anchor
      let c2 : Rect :=
        if stencilResize then
          ⟨anchor.x - (anchor.x - c1.left) * factor,
            anchor.y - (anchor.y - c1.top) * factor,
            c1.width * factor, c1.height * factor⟩
        else c1
      (va2, fitInto (limitBy pr va2) c2)

theorem fitFactor_mul_width (va : Rect) (ar : EdgeRestrictions) (f : ℚ)
    (h : 0 < va.width) : va.width * fitFactor va ar f ≤ ar.right - ar.left := by
  have h1 : fitFactor va ar f ≤ (ar.right - ar.left) / va.width :=
    le_trans (min_le_right _ _) (min_le_left _ _)
  calc va.width * fitFactor va ar f ≤ va.width * ((ar.right - ar.left) / va.width) :=
        mul_le_mul_of_nonneg_left h1 (le_of_lt h)
    _ = ar.right - ar.left := by field_simp

theorem fitFactor_mul_height (va : Rect) (ar : EdgeRestrictions) (f : ℚ)
    (h : 0 < va.height) : va.height * fitFactor va ar f ≤ ar.bottom - ar.top := by
  have h1 : fitFactor va ar f ≤ (ar.bottom - ar.top) / va.height :=
    le_trans (min_le_right _ _) (min_le_right _ _)
  calc va.height * fitFactor va ar f ≤ va.height * ((ar.bottom - ar.top) / va.height) :=
        mul_le_mul_of_nonneg_left h1 (le_of_lt h)
    _ = ar.bottom - ar.top := by field_simp

/-- C3: on every valid input state, the crop rectangle returned by the move, resize
and manipulate-image algorithms has its edges inside the position restrictions (left
bound ≤ left, left + width ≤ right bound, and the top/bottom analogues), and the
visible area returned by the manipulate-image algorithm satisfies the same edge bounds
against the area restrictions. -/
theorem transform_outputs_respect_restrictions
    (c va : Rect) (sr : SizeRestrictions) (pr ar : EdgeRestrictions)
    (aspect : AspectRange)
    (hcw : c.width ≤ pr.right - pr.left) (hch : c.height ≤ pr.bottom - pr.top)
    (hminw : sr.minWidth ≤ min sr.maxWidth (pr.right - pr.left))
    (hminh : sr.minHeight ≤ min sr.maxHeight (pr.bottom - pr.top))
    (hvw : 0 < va.width) (hvh : 0 < va.height)
    (hvaw : va.width ≤ ar.right - ar.left) (hvah : va.height ≤ ar.bottom - ar.top) :
    (∀ e : MoveEvent, withinBounds pr (move c pr e) ∧
      (move c pr e).width = c.width ∧ (move c pr e).height = c.height) ∧
    (∀ e : ResizeEvent, withinBounds pr (resize c sr pr aspect e)) ∧
    (∀ (e : ManipulateImageEvent) (stencilResize : Bool),
      withinBounds pr (manipulateImage va c ar pr e stencilResize).2 ∧
      withinBounds ar (manipulateImage va c ar pr e stencilResize).1) := by
  refine ⟨?_, ?_, ?_⟩
  · intro e
    exact ⟨clamped_window_rect pr _ _ c.width c.height hcw hch, rfl, rfl⟩
  · intro e
    refine clamped_window_rect pr _ _ _ _ ?_ ?_
    · exact le_trans (clampQ_high _ _ _ hminw) (min_le_right _ _)
    · exact le_trans (clampQ_high _ _ _ hminh) (min_le_right _ _)
  · intro e stencilResize
    rcases e with ⟨em, _ | sc⟩
    · constructor
      · exact withinBounds_limitBy pr _ _ (fitInto_withinBounds _ _)
      · exact clamped_window_rect ar _ _ va.width va.height hvaw hvah
    · constructor
      · exact withinBounds_limitBy pr _ _ (fitInto_withinBounds _ _)
      · refine clamped_window_rect ar _ _ _ _ ?_ ?_
        · exact fitFactor_mul_width (panVisibleArea va ar (em.left.getD 0) (em.top.getD 0))
            ar sc.factor hvw
        · exact fitFactor_mul_height (panVisibleArea va ar (em.left.getD 0) (em.top.getD 0))
            ar sc.factor hvh

/-- Witness for C3 at concrete inputs: a saturating move, a resize and a zoom on a
1000 × 800 image shown in a 1000 × 800 area. -/
theorem transform_outputs_respect_restrictions_witness :
    withinBounds ⟨0, 0, 1000, 800⟩ (move ⟨10, 10, 100, 80⟩ ⟨0, 0, 1000, 800⟩ ⟨5000, 0⟩) ∧
    withinBounds ⟨0, 0, 1000, 800⟩
      (resize ⟨10, 10, 100, 80⟩ ⟨50, 50, 1000, 800⟩ ⟨0, 0, 1000, 800⟩ ⟨none, none⟩
        ⟨0, 30, 0, 20⟩) ∧
    withinBounds ⟨0, 0, 1000, 800⟩
      (manipulateImage ⟨0, 0, 500, 400⟩ ⟨10, 10, 100, 80⟩ ⟨0, 0, 1000, 800⟩
        ⟨0, 0, 1000, 800⟩ ⟨⟨some 40, some 30⟩, some ⟨2, none⟩⟩ false).2 ∧
    withinBounds ⟨0, 0, 1000, 800⟩
      (manipulateImage ⟨0, 0, 500, 400⟩ ⟨10, 10, 100, 80⟩ ⟨0, 0, 1000, 800⟩
        ⟨0, 0, 1000, 800⟩ ⟨⟨some 40, some 30⟩, some ⟨2, none⟩⟩ false).1 := by
  have h := transform_outputs_respect_restrictions ⟨10, 10, 100, 80⟩ ⟨0, 0, 500, 400⟩
    ⟨50, 50, 1000, 800⟩ ⟨0, 0, 1000, 800⟩ ⟨0, 0, 1000, 800⟩ ⟨none, none⟩
    (by norm_num) (by norm_num) (by norm_num) (by norm_num)
    (by norm_num) (by norm_num) (by norm_num) (by norm_num)
  exact ⟨(h.1 ⟨5000, 0⟩).1, h.2.1 ⟨0, 30, 0, 20⟩,
    (h.2.2 ⟨⟨some 40, some 30⟩, some ⟨2, none⟩⟩ false).1,
    (h.2.2 ⟨⟨some 40, some 30⟩, some ⟨2, none⟩⟩ false).2⟩

/-- Integer-level core of the rounding step: clamp the rounded width/height into the
size restrictions and the position window, then clamp the rounded position so the
edges stay inside the position bounds wherever an integer value allows it. -/
def roundSnap (left0 top0 w0 h0 : ℤ) (sr : SizeRestrictions) (pr : EdgeRestrictions) :
    Rect :=
  let w1 := max ⌈sr.minWidth⌉ (min (min ⌊sr.maxWidth⌋ ⌊pr.right - pr.left⌋) w0)
  let h1 := max ⌈sr.minHeight⌉ (min (min ⌊sr.maxHeight⌋ ⌊pr.bottom - pr.top⌋) h0)
  let l1 := max ⌈pr.left⌉ (min (⌊pr.right⌋ - w1) left0)
  let t1 := max ⌈pr.top⌉ (min (⌊pr.bottom⌋ - h1) top0)
  ⟨(l1 : ℚ), (t1 : ℚ), (w1 : ℚ), (h1 : ℚ)⟩

/-- Modelled from the spec: `algorithms.roundCoordinates` lives in `./core/algorithms`,
which is not under src/. Per spec 4.8 it snaps the final crop rectangle to integer
pixel boundaries: the position is rounded first, the width/height are adjusted by the
residual (the right/bottom edges are rounded consistently with the left/top ones), and
the integers are clamped against the size restrictions and position bounds so that the
invariants the unrounded rectangle satisfied keep holding wherever integers allow. -/
def roundCoordinates (c : Rect) (sr : SizeRestrictions) (pr : EdgeRestrictions) : Rect :=
  roundSnap (round c.left) (round c.top)
    (round (c.left + c.width) - round c.left)
    (round (c.top + c.height) - round c.top) sr pr

/-- Model of `prepareResult` (src part_000 lines 547-557): with `roundResult` true the result
coordinates go through `roundCoordinates`, against the position restrictions limited
by the visible area; with `roundResult` false they are returned unchanged. -/
def prepareResult (roundResult : Bool) (c : Rect) (sr : SizeRestrictions)
    (pr : EdgeRestrictions) (va : Rect) : Rect :=
  if roundResult then roundCoordinates c sr (limitBy pr va) else c

/-- A rectangle whose four fields are integers. -/
def integralRect (c : Rect) : Prop :=
  (∃ n : ℤ, c.left = n) ∧ (∃ n : ℤ, c.top = n) ∧
  (∃ n : ℤ, c.width = n) ∧ (∃ n : ℤ, c.height = n)

/-- C9 counterexample: with the fractional size restriction
`minWidth = maxWidth = 21/2` the unrounded 21/2-wide rectangle satisfies every
restriction, but the rounded result (width 11) cannot — no integer lies between
21/2 and 21/2, so rounding does not preserve every previously-satisfied restriction. -/
theorem round_result_counterexample :
    satisfiesSize ⟨21 / 2, 0, 21 / 2, 100⟩ ⟨0, 0, 21 / 2, 5⟩ ∧
    withinBounds (limitBy ⟨0, 0, 100, 100⟩ ⟨0, 0, 100, 100⟩) ⟨0, 0, 21 / 2, 5⟩ ∧
    prepareResult true ⟨0, 0, 21 / 2, 5⟩ ⟨21 / 2, 0, 21 / 2, 100⟩ ⟨0, 0, 100, 100⟩
      ⟨0, 0, 100, 100⟩ = ⟨0, 0, 11, 5⟩ ∧
    ¬ satisfiesSize ⟨21 / 2, 0, 21 / 2, 100⟩
      (prepareResult true ⟨0, 0, 21 / 2, 5⟩ ⟨21 / 2, 0, 21 / 2, 100⟩ ⟨0, 0, 100, 100⟩
        ⟨0, 0, 100, 100⟩) := by
  have heq : prepareResult true ⟨0, 0, 21 / 2, 5⟩ ⟨21 / 2, 0, 21 / 2, 100⟩
      ⟨0, 0, 100, 100⟩ ⟨0, 0, 100, 100⟩ = ⟨0, 0, 11, 5⟩ := by
    have hc : ⌈(21 / 2 : ℚ)⌉ = 11 := by norm_num [Int.ceil_eq_iff]
    norm_num [prepareResult, roundCoordinates, roundSnap, limitBy, round_eq, hc]
  refine ⟨by norm_num [satisfiesSize], by norm_num [withinBounds, limitBy], heq, ?_⟩
  rw [heq]
  norm_num [satisfiesSize]

/-- Bounds for one axis of the integer rounding step: the clamped integer width stays
between the integer minimum and maximum and the clamped integer position keeps both
edges inside the integer bounds. -/
theorem roundSnapInt_bounds (l0 w0 mw Mw L R : ℤ) (h1 : mw ≤ Mw) (h2 : mw ≤ R - L) :
    mw ≤ max mw (min (min Mw (R - L)) w0) ∧
    max mw (min (min Mw (R - L)) w0) ≤ Mw ∧
    L ≤ max L (min (R - max mw (min (min Mw (R - L)) w0)) l0) ∧
    max L (min (R - max mw (min (min Mw (R - L)) w0)) l0) +
      max mw (min (min Mw (R - L)) w0) ≤ R := by
  have hwR : max mw (min (min Mw (R - L)) w0) ≤ R - L :=
    max_le h2 (le_trans (min_le_left _ _) (min_le_right _ _))
  refine ⟨le_max_left _ _, max_le h1 (le_trans (min_le_left _ _) (min_le_left _ _)),
    le_max_left _ _, ?_⟩
  have hl : max L (min (R - max mw (min (min Mw (R - L)) w0)) l0) ≤
      R - max mw (min (min Mw (R - L)) w0) :=
    max_le (by linarith) (min_le_left _ _)
  linarith

/-- C9 amended: with `roundResult` false the coordinates are returned unchanged; with
`roundResult` true they are snapped to integer pixel boundaries, and whenever the
restriction bounds are themselves integers, every min/max size and position-bound
restriction the unrounded coordinates satisfied still holds after rounding. -/
theorem round_result_amended (c : Rect) (mw mh Mw Mh L T R B : ℤ)
    (hsize : satisfiesSize ⟨(mw : ℚ), (mh : ℚ), (Mw : ℚ), (Mh : ℚ)⟩ c)
    (hpos : withinBounds ⟨(L : ℚ), (T : ℚ), (R : ℚ), (B : ℚ)⟩ c) :
    satisfiesSize ⟨(mw : ℚ), (mh : ℚ), (Mw : ℚ), (Mh : ℚ)⟩
      (roundCoordinates c ⟨(mw : ℚ), (mh : ℚ), (Mw : ℚ), (Mh : ℚ)⟩
        ⟨(L : ℚ), (T : ℚ), (R : ℚ), (B : ℚ)⟩) ∧
    withinBounds ⟨(L : ℚ), (T : ℚ), (R : ℚ), (B : ℚ)⟩
      (roundCoordinates c ⟨(mw : ℚ), (mh : ℚ), (Mw : ℚ), (Mh : ℚ)⟩
        ⟨(L : ℚ), (T : ℚ), (R : ℚ), (B : ℚ)⟩) ∧
    integralRect (roundCoordinates c ⟨(mw : ℚ), (mh : ℚ), (Mw : ℚ), (Mh : ℚ)⟩
      ⟨(L : ℚ), (T : ℚ), (R : ℚ), (B : ℚ)⟩) ∧
    (∀ (sr : SizeRestrictions) (pr : EdgeRestrictions) (va : Rect),
      prepareResult false c sr pr va = c ∧
      prepareResult true c sr pr va = roundCoordinates c sr (limitBy pr va)) := by
  simp only [satisfiesSize, withinBounds] at hsize hpos
  obtain ⟨hs1, hs2, hs3, hs4⟩ := hsize
  obtain ⟨hp1, hp2, hp3, hp4⟩ := hpos
  have hmwMw : mw ≤ Mw := by exact_mod_cast le_trans hs1 hs2
  have hmhMh : mh ≤ Mh := by exact_mod_cast le_trans hs3 hs4
  have hmwRL : mw ≤ R - L := by
    have h : (mw : ℚ) ≤ (R : ℚ) - (L : ℚ) := by linarith
    exact_mod_cast h
  have hmhBT : mh ≤ B - T := by
    have h : (mh : ℚ) ≤ (B : ℚ) - (T : ℚ) := by linarith
    exact_mod_cast h
  have hfl : ((R : ℚ) - (L : ℚ)) = ((R - L : ℤ) : ℚ) := by push_cast; ring
  have hfb : ((B : ℚ) - (T : ℚ)) = ((B - T : ℤ) : ℚ) := by push_cast; ring
  have hW := roundSnapInt_bounds (round c.left)
    (round (c.left + c.width) - round c.left) mw Mw L R hmwMw hmwRL
  have hH := roundSnapInt_bounds (round c.top)
    (round (c.top + c.height) - round c.top) mh Mh T B hmhMh hmhBT
  constructor
  · simp only [roundCoordinates, roundSnap, satisfiesSize, hfl, hfb,
      Int.ceil_intCast, Int.floor_intCast]
    refine ⟨?_, ?_, ?_, ?_⟩
    · exact_mod_cast hW.1
    · exact_mod_cast hW.2.1
    · exact_mod_cast hH.1
    · exact_mod_cast hH.2.1
  constructor
  · simp only [roundCoordinates, roundSnap, withinBounds, hfl, hfb,
      Int.ceil_intCast, Int.floor_intCast]
    refine ⟨?_, ?_, ?_, ?_⟩
    · exact_mod_cast hW.2.2.1
    · exact_mod_cast hW.2.2.2
    · exact_mod_cast hH.2.2.1
    · exact_mod_cast hH.2.2.2
  constructor
  · simp only [roundCoordinates, roundSnap, integralRect, hfl, hfb,
      Int.ceil_intCast, Int.floor_intCast]
    exact ⟨⟨_, rfl⟩, ⟨_, rfl⟩, ⟨_, rfl⟩, ⟨_, rfl⟩⟩
  · intro sr pr va
    exact ⟨rfl, rfl⟩

/-- Witness for C9 at concrete inputs: a rectangle at (1/2, 1/2) of size 21/2 × 21/2
under integer restrictions keeps satisfying them after rounding, and the rounded
result is integral. -/
theorem round_result_amended_witness :
    satisfiesSize ⟨((5 : ℤ) : ℚ), ((5 : ℤ) : ℚ), ((20 : ℤ) : ℚ), ((20 : ℤ) : ℚ)⟩
      (roundCoordinates ⟨1 / 2, 1 / 2, 21 / 2, 21 / 2⟩
        ⟨((5 : ℤ) : ℚ), ((5 : ℤ) : ℚ), ((20 : ℤ) : ℚ), ((20 : ℤ) : ℚ)⟩
        ⟨((0 : ℤ) : ℚ), ((0 : ℤ) : ℚ), ((100 : ℤ) : ℚ), ((100 : ℤ) : ℚ)⟩) ∧
    withinBounds ⟨((0 : ℤ) : ℚ), ((0 : ℤ) : ℚ), ((100 : ℤ) : ℚ), ((100 : ℤ) : ℚ)⟩
      (roundCoordinates ⟨1 / 2, 1 / 2, 21 / 2, 21 / 2⟩
        ⟨((5 : ℤ) : ℚ), ((5 : ℤ) : ℚ), ((20 : ℤ) : ℚ), ((20 : ℤ) : ℚ)⟩
        ⟨((0 : ℤ) : ℚ), ((0 : ℤ) : ℚ), ((100 : ℤ) : ℚ), ((100 : ℤ) : ℚ)⟩) ∧
    prepareResult false ⟨1 / 2, 1 / 2, 21 / 2, 21 / 2⟩ ⟨5, 5, 20, 20⟩ ⟨0, 0, 100, 100⟩
      sampleRect = ⟨1 / 2, 1 / 2, 21 / 2, 21 / 2⟩ := by
  have h := round_result_amended ⟨1 / 2, 1 / 2, 21 / 2, 21 / 2⟩ 5 5 20 20 0 0 100 100
    (by norm_num [satisfiesSize]) (by norm_num [withinBounds])
  exact ⟨h.1, h.2.1, (h.2.2.2 ⟨5, 5, 20, 20⟩ ⟨0, 0, 100, 100⟩ sampleRect).1⟩

end VueCropper
